import Mathlib

/-!
Verification development for the maas-operator convergence engine.

The Go source is shallowly embedded: byte blobs become `List Char`,
Kubernetes objects become structures, and the effectful reconciler
control flow is modelled as pure functions over an explicit store state,
parameterized by the outcomes of the external store operations.
-/

/-! ## Byte-level string utilities (bytes.HasPrefix, bytes.TrimSpace, bytes.Split) -/

/-- Go bytes.HasPrefix: `startsWith s pre` is true when `pre` is an initial
segment of `s`. -/
def startsWith : List Char → List Char → Bool
  | _, [] => true
  | [], _ :: _ => false
  | c :: cs, p :: ps => c == p && startsWith cs ps

/-- ASCII whitespace bytes trimmed by Go bytes.TrimSpace. -/
def isSpaceByte (c : Char) : Bool :=
  c == ' ' || c == '\t' || c == '\n' || c == '\x0b' || c == '\x0c' || c == '\r'

/-- Go bytes.TrimSpace: drop whitespace from both ends. -/
def trimSpace (s : List Char) : List Char :=
  ((s.dropWhile isSpaceByte).reverse.dropWhile isSpaceByte).reverse

/-- Go bytes.Split(data, []byte("\n")): split into lines, keeping empty
fragments; the result always has at least one element. -/
def splitLines : List Char → List (List Char)
  | [] => [[]]
  | c :: cs =>
    if c = '\n' then [] :: splitLines cs
    else
      match splitLines cs with
      | [] => [[c]]
      | l :: ls => (c :: l) :: ls

/-- A line whose whitespace-trimmed content begins with the three-dash
separator (the condition tested by splitYAMLDocuments). -/
def isSeparatorLine (l : List Char) : Bool :=
  startsWith (trimSpace l) "---".data

/-! ## splitYAMLDocuments (maasplatform_controller.go) -/

/-- The line loop of splitYAMLDocuments: a separator line flushes the
accumulated document only when it is non-empty (and is then consumed);
otherwise the line (with its newline, except for the final line) is
appended to the accumulator.  The trailing accumulator is emitted only
when non-empty. -/
def splitDocsLoop : List (List Char) → List Char → List (List Char)
  | [], currentDoc => if currentDoc.length > 0 then [currentDoc] else []
  | line :: rest, currentDoc =>
    if isSeparatorLine line && currentDoc.length > 0 then
      currentDoc :: splitDocsLoop rest []
    else
      splitDocsLoop rest (currentDoc ++ line ++ (if rest.isEmpty then [] else ['\n']))

/-- splitYAMLDocuments: splits a multi-document blob into documents; the Go
function always returns a nil error, modelled by the constant `none`. -/
def splitYAMLDocuments (data : List Char) : List (List Char) × Option String :=
  (splitDocsLoop (splitLines data) [], none)

/-- The document splitting described by spec section 4.2, written from the
spec words for refinement comparison: every separator line starts a new
document and is itself part of no document, and empty leading documents
are dropped. -/
def splitDocsSpecLoop : List (List Char) → List Char → List (List Char)
  | [], currentDoc => [currentDoc]
  | line :: rest, currentDoc =>
    if isSeparatorLine line then
      currentDoc :: splitDocsSpecLoop rest []
    else
      splitDocsSpecLoop rest (currentDoc ++ line ++ (if rest.isEmpty then [] else ['\n']))

/-- Spec-side splitter (section 4.2 wording): split at every separator line,
then drop the empty leading documents. -/
def splitDocumentsSpec (data : List Char) : List (List Char) :=
  (splitDocsSpecLoop (splitLines data) []).dropWhile (fun d => d.isEmpty)

/-- Well-formed splitter input: every separator line closes a non-empty
document and opens one.  Concretely: a separator line is never last, is
never immediately followed by another separator line, and when its
successor is the final line that line is non-empty. -/
def goodLines : List (List Char) → Bool
  | [] => true
  | [l] => !isSeparatorLine l
  | l :: l2 :: rest2 =>
    if isSeparatorLine l then
      !isSeparatorLine l2 && (!rest2.isEmpty || !l2.isEmpty) && goodLines (l2 :: rest2)
    else goodLines (l2 :: rest2)

/-- Well-formed splitter input, including that the blob does not begin with
a separator line. -/
def goodSplitInput (data : List Char) : Bool :=
  match splitLines data with
  | [] => true
  | l :: _ => !isSeparatorLine l && goodLines (splitLines data)

example : (splitYAMLDocuments "a\n---\nb".data).1 = ["a\n".data, "b".data] := by decide
example : (splitYAMLDocuments "---\na".data).1 = ["---\na".data] := by decide
example : splitDocumentsSpec "---\na".data = ["a".data] := by decide
example : goodSplitInput "a\n---\nb".data = true := by decide

/-! ## substituteEnvVars (maasplatform_controller.go) -/

/-- Go strings.ReplaceAll scanner.  The second argument counts bytes of a
matched occurrence that remain to be skipped; an occurrence of `pat`
found at the head emits `rep` and skips the rest of the match. -/
def replaceAllGo : List Char → Nat → List Char → List Char → List Char
  | [], _, _, _ => []
  | _ :: cs, skip + 1, pat, rep => replaceAllGo cs skip pat rep
  | c :: cs, 0, pat, rep =>
    if startsWith (c :: cs) pat && !pat.isEmpty then
      rep ++ replaceAllGo cs (pat.length - 1) pat rep
    else
      c :: replaceAllGo cs 0 pat rep

/-- Go strings.ReplaceAll(s, pat, rep): replace every non-overlapping
occurrence of `pat`, scanning left to right. -/
def replaceAll (s pat rep : List Char) : List Char :=
  replaceAllGo s 0 pat rep

/-- The cluster-domain resolution in substituteEnvVars: the CLUSTER_DOMAIN
environment value when non-empty; otherwise the spec.domain of the
config.openshift.io Ingress singleton when that Get succeeds and the
field is present and non-empty; otherwise the fixed default.
`ingressDomain` is `none` when the Get fails, `some none` when the
domain field is absent, `some (some d)` when present with value `d`. -/
def resolveClusterDomain (envVal : List Char) (ingressDomain : Option (Option (List Char))) :
    List Char :=
  if envVal = [] then
    let fromIngress :=
      match ingressDomain with
      | some (some d) => d
      | _ => []
    if fromIngress = [] then "apps.example.com".data else fromIngress
  else envVal

/-- substituteEnvVars: resolve the cluster domain, then replace every
braced and bare CLUSTER_DOMAIN token, in that order. -/
def substituteEnvVars (content envVal : List Char)
    (ingressDomain : Option (Option (List Char))) : List Char :=
  let clusterDomain := resolveClusterDomain envVal ingressDomain
  replaceAll (replaceAll content "${CLUSTER_DOMAIN}".data clusterDomain)
    "$CLUSTER_DOMAIN".data clusterDomain

/-- True when a byte blob contains no dollar sign, hence no substitution
token can start inside it. -/
def noDollar (s : List Char) : Bool :=
  s.all (fun c => !(c == '$'))

/-- A manifest template decomposed into literal segments and the two
CLUSTER_DOMAIN token forms. -/
inductive Seg where
  | lit (s : List Char)
  | bracedVar
  | bareVar
deriving DecidableEq

/-- Reassemble a decomposed template into its byte blob. -/
def renderSegs : List Seg → List Char
  | [] => []
  | Seg.lit s :: rest => s ++ renderSegs rest
  | Seg.bracedVar :: rest => "${CLUSTER_DOMAIN}".data ++ renderSegs rest
  | Seg.bareVar :: rest => "$CLUSTER_DOMAIN".data ++ renderSegs rest

/-- Reassemble a decomposed template with both token forms replaced by a
value and every literal segment kept verbatim. -/
def renderWith (v : List Char) : List Seg → List Char
  | [] => []
  | Seg.lit s :: rest => s ++ renderWith v rest
  | Seg.bracedVar :: rest => v ++ renderWith v rest
  | Seg.bareVar :: rest => v ++ renderWith v rest

/-- The decomposition after the first ReplaceAll pass: every braced token
replaced by the literal value, bare tokens untouched. -/
def substBracedSeg (v : List Char) : Seg → Seg
  | Seg.bracedVar => Seg.lit v
  | s => s

/-- Whether all literal segments of a decomposition are dollar-free. -/
def litsNoDollar (segs : List Seg) : Bool :=
  segs.all (fun s => match s with | Seg.lit l => noDollar l | _ => true)

example :
    substituteEnvVars "a: ${CLUSTER_DOMAIN}\nb: $CLUSTER_DOMAIN\n".data "x.io".data none
      = "a: x.io\nb: x.io\n".data := by decide
example : resolveClusterDomain [] (some (some "d.io".data)) = "d.io".data := by decide
example : resolveClusterDomain [] (some none) = "apps.example.com".data := by decide

/-! ## Data model (api/v1alpha1: Tier, MaasPlatform) -/

/-- TierSpec.TargetRef: reference to the owning MaasPlatform; an empty
namespace defaults to the Tier's own namespace. -/
structure MaasPlatformTargetRef where
  name : String
  nspace : String
deriving DecidableEq

/-- TierRateLimitConfig: request rate limit declared by a Tier. -/
structure TierRateLimitConfig where
  limit : Int
  window : String
  counters : List String
deriving DecidableEq

/-- TierTokenRateLimitConfig: token rate limit declared by a Tier. -/
structure TierTokenRateLimitConfig where
  limit : Int
  window : String
  counters : List String
deriving DecidableEq

/-- TierSpec (tier_types.go). -/
structure TierSpec where
  targetRef : MaasPlatformTargetRef
  rateLimits : Option TierRateLimitConfig
  tokenRateLimits : Option TierTokenRateLimitConfig
  models : List String
deriving DecidableEq

/-- A Tier object: identity metadata plus its spec. -/
structure Tier where
  name : String
  nspace : String
  generateName : String
  spec : TierSpec
deriving DecidableEq

/-- A MaasPlatform object: identity metadata (its spec carries no fields
used by the aggregation engine). -/
structure MaasPlatform where
  name : String
  nspace : String
deriving DecidableEq

/-! ## Aggregation engine (TierReconciler) -/

/-- The namespace a Tier's TargetRef resolves to: the declared namespace,
or the Tier's own namespace when the declared one is empty. -/
def tierTargetNamespace (t : Tier) : String :=
  if t.spec.targetRef.nspace = "" then t.nspace else t.spec.targetRef.nspace

/-- Whether a Tier targets a given MaasPlatform (the filter in
reconcileMaasPlatformTiers). -/
def targetsPlatform (t : Tier) (mp : MaasPlatform) : Bool :=
  t.spec.targetRef.name = mp.name && tierTargetNamespace t = mp.nspace

/-- The Tiers of a cluster-wide list that target a given MaasPlatform. -/
def filterTargetTiers (tiers : List Tier) (mp : MaasPlatform) : List Tier :=
  tiers.filter (fun t => targetsPlatform t mp)

/-- The tier name used for keys and labels: the object name, falling back
to generateName plus a "-tier" suffix when the name is empty. -/
def resolvedTierName (t : Tier) : String :=
  if t.name = "" then t.generateName ++ "-tier" else t.name

/-- One rate entry of a policy rule. -/
structure Rate where
  limit : Int
  window : String
deriving DecidableEq

/-- One rule of a (token) rate limit policy: rates, when-predicates and
counters. -/
structure TierLimit where
  rates : List Rate
  whenPredicates : List String
  counters : List String
deriving DecidableEq

/-- Go map membership test over the association-list model. -/
def mapHasKey {α : Type} (m : List (String × α)) (k : String) : Bool :=
  m.any (fun p => p.1 = k)

/-- Go map insertion: replace the value when the key exists, append the
binding otherwise. -/
def mapInsert {α : Type} (m : List (String × α)) (k : String) (v : α) :
    List (String × α) :=
  if mapHasKey m k then m.map (fun p => if p.1 = k then (k, v) else p)
  else m ++ [(k, v)]

/-- Go map lookup over the association-list model. -/
def mapLookup {α : Type} (m : List (String × α)) (k : String) : Option α :=
  (m.find? (fun p => p.1 = k)).map (fun p => p.2)

/-- The rule built for one Tier by updateRateLimitPolicy: one rate from the
config, the auth.identity.tier when-predicate, and counters defaulting
to the user-identity counter. -/
def rateLimitEntry (t : Tier) (cfg : TierRateLimitConfig) : TierLimit :=
  { rates := [{ limit := cfg.limit, window := cfg.window }],
    whenPredicates := ["auth.identity.tier == \"" ++ resolvedTierName t ++ "\""],
    counters := if cfg.counters = [] then ["auth.identity.userid"] else cfg.counters }

/-- The rule built for one Tier by updateTokenRateLimitPolicy. -/
def tokenRateLimitEntry (t : Tier) (cfg : TierTokenRateLimitConfig) : TierLimit :=
  { rates := [{ limit := cfg.limit, window := cfg.window }],
    whenPredicates := ["auth.identity.tier == \"" ++ resolvedTierName t ++ "\""],
    counters := if cfg.counters = [] then ["auth.identity.userid"] else cfg.counters }

/-- The limits map built by updateRateLimitPolicy: one entry per Tier that
declares a RateLimitConfig, keyed by the resolved tier name. -/
def buildRateLimits (tiers : List Tier) : List (String × TierLimit) :=
  tiers.foldl
    (fun limits t =>
      match t.spec.rateLimits with
      | none => limits
      | some cfg => mapInsert limits (resolvedTierName t) (rateLimitEntry t cfg))
    []

/-- The limits map built by updateTokenRateLimitPolicy: one entry per Tier
that declares a TokenRateLimitConfig, keyed by the resolved tier name
plus a "-user-tokens" suffix. -/
def buildTokenRateLimits (tiers : List Tier) : List (String × TierLimit) :=
  tiers.foldl
    (fun limits t =>
      match t.spec.tokenRateLimits with
      | none => limits
      | some cfg =>
        mapInsert limits (resolvedTierName t ++ "-user-tokens") (tokenRateLimitEntry t cfg))
    []

/-- The heuristic tier level derived from name substrings in
updateTierConfigMap. -/
def containsSub : List Char → List Char → Bool
  | [], pat => startsWith [] pat
  | c :: rest, pat => startsWith (c :: rest) pat || containsSub rest pat

/-- Substring test on strings (Go strings.Contains). -/
def strContains (s pat : String) : Bool :=
  containsSub s.data pat.data

/-- Level heuristic of updateTierConfigMap: premium maps to 1, enterprise
to 2, anything else to 0. -/
def tierLevel (tierName : String) : Nat :=
  if strContains tierName.toLower "premium" then 1
  else if strContains tierName.toLower "enterprise" then 2
  else 0

/-- One block of the tier-to-group-mapping YAML body. -/
def tierMappingBlock (t : Tier) : String :=
  let tierName := resolvedTierName t
  "  # Tier: " ++ tierName ++ "\n" ++
  "  - name: " ++ tierName ++ "\n" ++
  "    level: " ++ toString (tierLevel tierName) ++ "\n" ++
  "    groups:\n" ++
  "      - tier-" ++ tierName ++ "-users\n" ++
  "      - system:authenticated\n" ++
  "\n"

/-- The full tiers key value built by updateTierConfigMap, over the tiers
sorted by name. -/
def buildTierMappings (tiers : List Tier) : String :=
  let sorted := tiers.mergeSort (fun a b => a.name ≤ b.name)
  "tiers: |\n" ++ String.join (sorted.map tierMappingBlock)

/-- A ConfigMap object as touched by updateTierConfigMap. -/
structure ConfigMap where
  name : String
  nspace : String
  data : List (String × String)
  labels : List (String × String)
deriving DecidableEq

/-- A policy targetRef (fixed to the maas-default-gateway Gateway). -/
structure PolicyTargetRef where
  group : String
  kind : String
  name : String
deriving DecidableEq

/-- The fixed gateway targetRef set on both policies. -/
def gatewayTargetRef : PolicyTargetRef :=
  { group := "gateway.networking.k8s.io", kind := "Gateway", name := "maas-default-gateway" }

/-- A kuadrant.io policy object (RateLimitPolicy or TokenRateLimitPolicy)
as written by the aggregation engine. -/
structure KuadrantPolicy where
  apiGroup : String
  version : String
  kind : String
  name : String
  nspace : String
  targetRef : PolicyTargetRef
  limits : List (String × TierLimit)
deriving DecidableEq

/-- The slice of cluster state written by the aggregation engine. -/
structure Store where
  tierConfigMap : Option ConfigMap
  rateLimitPolicy : Option KuadrantPolicy
  tokenRateLimitPolicy : Option KuadrantPolicy
deriving DecidableEq

/-- updateTierConfigMap: get or create the tier-to-group-mapping ConfigMap
in maas-api, replace its data with the freshly built mapping, and stamp
the managed-by and maas-platform labels (the latter only when the tier
list is non-empty).  Before persisting, the function issues a second
Get into the same ConfigMap object to decide create versus update;
when the ConfigMap already exists that Get overwrites the built
content with the live object, so the subsequent Update writes the
existing data and labels back unchanged — the built mapping is only
persisted on the create path. -/
def updateTierConfigMap (tiers : List Tier) (mp : MaasPlatform) (st : Store) : Store :=
  let base :=
    match st.tierConfigMap with
    | none =>
      { name := "tier-to-group-mapping", nspace := "maas-api",
        data := [], labels := [] : ConfigMap }
    | some cm => cm
  let withData := { base with data := [("tiers", buildTierMappings tiers)] }
  let withLabels :=
    if tiers.length > 0 then
      { withData with
        labels :=
          mapInsert
            (mapInsert withData.labels "app.kubernetes.io/managed-by" "maas-operator")
            "maas-platform" (mp.name ++ "." ++ mp.nspace) }
    else withData
  match st.tierConfigMap with
  | none => { st with tierConfigMap := some withLabels }
  | some live => { st with tierConfigMap := some live }

/-- updateRateLimitPolicy: build the fresh spec (fixed targetRef plus the
recomputed limits map) into the policy object, then issue a second Get
into the same object to decide create versus update.  On the create
path the built spec is persisted; when the policy already exists the
second Get overwrites the built spec with the live object and the
Update writes the existing limits back unchanged. -/
def updateRateLimitPolicy (tiers : List Tier) (st : Store) : Store :=
  let built : KuadrantPolicy :=
    { apiGroup := "kuadrant.io", version := "v1", kind := "RateLimitPolicy",
      name := "gateway-rate-limits", nspace := "openshift-ingress",
      targetRef := gatewayTargetRef, limits := buildRateLimits tiers }
  match st.rateLimitPolicy with
  | none => { st with rateLimitPolicy := some built }
  | some live => { st with rateLimitPolicy := some live }

/-- updateTokenRateLimitPolicy: build the fresh spec into the policy
object, then issue a second Get into the same object to decide create
versus update.  On the create path the built spec is persisted; when
the policy already exists the second Get overwrites the built spec
with the live object and the Update writes the existing limits back
unchanged. -/
def updateTokenRateLimitPolicy (tiers : List Tier) (st : Store) : Store :=
  let built : KuadrantPolicy :=
    { apiGroup := "kuadrant.io", version := "v1alpha1", kind := "TokenRateLimitPolicy",
      name := "gateway-token-rate-limits", nspace := "openshift-ingress",
      targetRef := gatewayTargetRef, limits := buildTokenRateLimits tiers }
  match st.tokenRateLimitPolicy with
  | none => { st with tokenRateLimitPolicy := some built }
  | some live => { st with tokenRateLimitPolicy := some live }

/-- Which derived artifact an aggregation pass attempted to apply. -/
inductive TierArtifact where
  | configMap
  | rateLimitPolicy
  | tokenRateLimitPolicy
deriving DecidableEq

/-- Outcomes of the external store operations during one aggregation pass:
the Tier list call and the three artifact writes (`none` = success). -/
structure TierWorld where
  listErr : Option String
  cmErr : Option String
  rlpErr : Option String
  trlpErr : Option String

/-- reconcileMaasPlatformTiers: list all Tiers, filter to those targeting
the platform, stop when none match, and otherwise apply the ConfigMap,
the RateLimitPolicy and the TokenRateLimitPolicy in that order, each
failure returning immediately.  Returns the resulting store, the list
of artifacts attempted, and the returned error. -/
def reconcileMaasPlatformTiers (w : TierWorld) (tiers : List Tier) (mp : MaasPlatform)
    (st : Store) : Store × List TierArtifact × Option String :=
  match w.listErr with
  | some e => (st, [], some e)
  | none =>
    let targetTiers := filterTargetTiers tiers mp
    if targetTiers.length = 0 then (st, [], none)
    else
      match w.cmErr with
      | some e => (st, [TierArtifact.configMap], some e)
      | none =>
        let st1 := updateTierConfigMap targetTiers mp st
        match w.rlpErr with
        | some e => (st1, [TierArtifact.configMap, TierArtifact.rateLimitPolicy], some e)
        | none =>
          let st2 := updateRateLimitPolicy targetTiers st1
          match w.trlpErr with
          | some e =>
            (st2,
             [TierArtifact.configMap, TierArtifact.rateLimitPolicy,
              TierArtifact.tokenRateLimitPolicy], some e)
          | none =>
            let st3 := updateTokenRateLimitPolicy targetTiers st2
            (st3,
             [TierArtifact.configMap, TierArtifact.rateLimitPolicy,
              TierArtifact.tokenRateLimitPolicy], none)

/-- One iteration of the reconcileAllMaasPlatforms loop: run the
aggregation pass for one platform against the current store and append
its (platform, attempted artifacts, outcome) triple; a failure is
recorded but does not stop the loop. -/
def reconcileAllStep (aw : MaasPlatform → TierWorld) (tiers : List Tier)
    (acc : Store × List (MaasPlatform × List TierArtifact × Option String))
    (mp : MaasPlatform) :
    Store × List (MaasPlatform × List TierArtifact × Option String) :=
  let r := reconcileMaasPlatformTiers (aw mp) tiers mp acc.1
  (r.1, acc.2 ++ [(mp, r.2.1, r.2.2)])

/-- reconcileAllMaasPlatforms: list every MaasPlatform and run the
aggregation pass for each in order, logging and ignoring per-platform
failures; the call itself returns nil unless the List call failed. -/
def reconcileAllMaasPlatforms (listErr : Option String) (aw : MaasPlatform → TierWorld)
    (platforms : List MaasPlatform) (tiers : List Tier) (st : Store) :
    Store × List (MaasPlatform × List TierArtifact × Option String) × Option String :=
  match listErr with
  | some e => (st, [], some e)
  | none =>
    let final := platforms.foldl (reconcileAllStep aw tiers) (st, [])
    (final.1, final.2, none)

/-- Result of a store Get: the object, not-found, or a transient failure. -/
inductive GetResult (α : Type) where
  | found (a : α)
  | notFound
  | failed (e : String)
deriving DecidableEq

/-- The external outcomes driving one TierReconciler.Reconcile call. -/
structure TierReconcileWorld where
  tierGet : GetResult Tier
  platformGet : GetResult MaasPlatform
  platformListErr : Option String
  platforms : List MaasPlatform
  tiers : List Tier
  artifactWorld : MaasPlatform → TierWorld

/-- TierReconciler.Reconcile: a not-found Tier triggers
reconcileAllMaasPlatforms; a found Tier resolves its TargetRef platform
and runs the single-platform aggregation pass; Get failures propagate. -/
def TierReconcile (w : TierReconcileWorld) (st : Store) :
    Store × List (MaasPlatform × List TierArtifact × Option String) × Option String :=
  match w.tierGet with
  | GetResult.notFound =>
    reconcileAllMaasPlatforms w.platformListErr w.artifactWorld w.platforms w.tiers st
  | GetResult.failed e => (st, [], some e)
  | GetResult.found _ =>
    match w.platformGet with
    | GetResult.failed e => (st, [], some e)
    | GetResult.notFound => (st, [], some "maasplatform not found")
    | GetResult.found mp =>
      let r := reconcileMaasPlatformTiers (w.artifactWorld mp) w.tiers mp st
      (r.1, [(mp, r.2.1, r.2.2)], r.2.2)

/-! ## Convergence applier (MaasPlatformReconciler, deployEmbeddedManifest) -/

/-- A rendered managed object as handled by deployEmbeddedManifest:
group/version/kind identity, metadata, and an optional controller
owner reference recorded as (owner name, owner namespace). -/
structure UnstructuredObj where
  kind : String
  name : String
  nspace : String
  ownerRef : Option (String × String)
  labels : List (String × String)
deriving DecidableEq

/-- ctrl.SetControllerReference: sets the platform as controller owner;
when a controller reference already exists the call errors, the error
is logged and the object is left as it was (setting the same owner
again also leaves it unchanged). -/
def setControllerReference (mp : MaasPlatform) (obj : UnstructuredObj) : UnstructuredObj :=
  match obj.ownerRef with
  | some _ => obj
  | none => { obj with ownerRef := some (mp.name, mp.nspace) }

/-- The ownership step of deployEmbeddedManifest: attach the controller
reference only for a namespaced object in the platform's own
namespace; cluster-scoped and cross-namespace objects are left
untouched. -/
def setOwnership (mp : MaasPlatform) (obj : UnstructuredObj) : UnstructuredObj :=
  if obj.nspace ≠ "" && obj.nspace = mp.nspace then
    setControllerReference mp obj
  else obj

/-- The cluster objects visible to the applier. -/
structure Cluster where
  objs : List UnstructuredObj
deriving DecidableEq

/-- Whether an object with the given identity exists in the cluster. -/
def existsObj (c : Cluster) (kind nspace name : String) : Bool :=
  c.objs.any (fun o => o.kind = kind && o.nspace = nspace && o.name = name)

/-- A store call issued by the applier for one rendered object. -/
inductive ApplyAction where
  | create (obj : UnstructuredObj)
  | update (obj : UnstructuredObj)
deriving DecidableEq

/-- applyUnstructured: Get by identity; not-found creates the object,
otherwise the desired object replaces the stored one wholesale
(carrying the concurrency token, which the model does not track). -/
def applyUnstructured (c : Cluster) (obj : UnstructuredObj) : Cluster × ApplyAction :=
  if existsObj c obj.kind obj.nspace obj.name then
    ({ objs := c.objs.map
        (fun o =>
          if o.kind = obj.kind && o.nspace = obj.nspace && o.name = obj.name then obj
          else o) },
     ApplyAction.update obj)
  else
    ({ objs := c.objs ++ [obj] }, ApplyAction.create obj)

/-- The per-document body of deployEmbeddedManifest: skip the reserved
tier-to-group-mapping ConfigMap when asked, skip an already existing
PersistentVolumeClaim silently, and otherwise apply the object after
the ownership step.  Returns the new cluster and the store calls
issued (empty when the document was skipped). -/
def deployDoc (mp : MaasPlatform) (skipConfigMap : Bool) (c : Cluster)
    (obj : UnstructuredObj) : Cluster × List ApplyAction :=
  if skipConfigMap && obj.kind = "ConfigMap" && obj.name = "tier-to-group-mapping" then
    (c, [])
  else if obj.kind = "PersistentVolumeClaim" && existsObj c obj.kind obj.nspace obj.name then
    (c, [])
  else
    let owned := setOwnership mp obj
    let r := applyUnstructured c owned
    (r.1, [r.2])

/-- The steps MaasPlatformReconciler.Reconcile performs, in order. -/
inductive ReconcileStep where
  | ensureNamespaces
  | deployManifest (path : String)
  | updateStatus
deriving DecidableEq

/-- Outcomes of the external calls made by one
MaasPlatformReconciler.Reconcile invocation (`none` = success). -/
structure PlatformWorld where
  platformGet : GetResult MaasPlatform
  namespacesResult : Option String
  deploy : String → Option String
  statusResult : Option String

/-- The three embedded manifest groups, in deployment order. -/
def maasApiManifest : String := "manifests/maas-api/resources.yaml"

/-- Path of the networking manifest group. -/
def networkingManifest : String := "manifests/networking/resources.yaml"

/-- Path of the gateway auth policy manifest. -/
def gatewayAuthPolicyManifest : String := "manifests/policies/gateway-auth-policy.yaml"

/-- MaasPlatformReconciler.Reconcile: a not-found platform is treated as
deleted and succeeds with no action; otherwise ensure namespaces, then
deploy the three manifest groups in fixed order, then update status,
each failure returning immediately.  Returns the steps attempted in
order and the returned error. -/
def MaasPlatformReconcile (w : PlatformWorld) : List ReconcileStep × Option String :=
  match w.platformGet with
  | GetResult.failed e => ([], some e)
  | GetResult.notFound => ([], none)
  | GetResult.found _ =>
    match w.namespacesResult with
    | some e => ([ReconcileStep.ensureNamespaces], some e)
    | none =>
      match w.deploy maasApiManifest with
      | some e =>
        ([ReconcileStep.ensureNamespaces, ReconcileStep.deployManifest maasApiManifest], some e)
      | none =>
        match w.deploy networkingManifest with
        | some e =>
          ([ReconcileStep.ensureNamespaces, ReconcileStep.deployManifest maasApiManifest,
            ReconcileStep.deployManifest networkingManifest], some e)
        | none =>
          match w.deploy gatewayAuthPolicyManifest with
          | some e =>
            ([ReconcileStep.ensureNamespaces, ReconcileStep.deployManifest maasApiManifest,
              ReconcileStep.deployManifest networkingManifest,
              ReconcileStep.deployManifest gatewayAuthPolicyManifest], some e)
          | none =>
            match w.statusResult with
            | some e =>
              ([ReconcileStep.ensureNamespaces, ReconcileStep.deployManifest maasApiManifest,
                ReconcileStep.deployManifest networkingManifest,
                ReconcileStep.deployManifest gatewayAuthPolicyManifest,
                ReconcileStep.updateStatus], some e)
            | none =>
              ([ReconcileStep.ensureNamespaces, ReconcileStep.deployManifest maasApiManifest,
                ReconcileStep.deployManifest networkingManifest,
                ReconcileStep.deployManifest gatewayAuthPolicyManifest,
                ReconcileStep.updateStatus], none)

/-! ## Concrete fixtures used by counterexamples and witnesses -/

/-- A sample platform. -/
def mpEx : MaasPlatform := { name := "platform-a", nspace := "maas-ns" }

/-- A sample Tier targeting mpEx through the empty-namespace default. -/
def tierEx : Tier :=
  { name := "free", nspace := "maas-ns", generateName := "",
    spec :=
      { targetRef := { name := "platform-a", nspace := "" },
        rateLimits := some { limit := 5, window := "2m", counters := [] },
        tokenRateLimits := none, models := [] } }

/-- A sample store holding a pre-existing tier-to-group-mapping ConfigMap. -/
def stEx : Store :=
  { tierConfigMap := some
      { name := "tier-to-group-mapping", nspace := "maas-api",
        data := [("tiers", "tiers: |\n")], labels := [] },
    rateLimitPolicy := none,
    tokenRateLimitPolicy := none }

/-- Two Tiers in different namespaces sharing one name, both declaring a
RateLimitConfig and both targeting mpEx. -/
def tierDupA1 : Tier :=
  { name := "tier-a", nspace := "ns1", generateName := "",
    spec :=
      { targetRef := { name := "platform-a", nspace := "maas-ns" },
        rateLimits := some { limit := 5, window := "2m", counters := [] },
        tokenRateLimits := none, models := [] } }

/-- The second same-named Tier. -/
def tierDupA2 : Tier :=
  { name := "tier-a", nspace := "ns2", generateName := "",
    spec :=
      { targetRef := { name := "platform-a", nspace := "maas-ns" },
        rateLimits := some { limit := 20, window := "2m", counters := [] },
        tokenRateLimits := none, models := [] } }

/-- A rendered object in a namespace different from mpEx's, with no labels
and no owner reference. -/
def objCrossNs : UnstructuredObj :=
  { kind := "Deployment", name := "maas-api", nspace := "maas-api",
    ownerRef := none, labels := [] }

/-- A platform no fixture Tier targets. -/
def mpOther : MaasPlatform := { name := "platform-b", nspace := "maas-ns" }

/-- An all-success TierWorld. -/
def twOk : TierWorld := { listErr := none, cmErr := none, rlpErr := none, trlpErr := none }

/-- A rule left over from an earlier recompute for a since-deleted tier. -/
def staleLimit : TierLimit :=
  { rates := [{ limit := 1, window := "1m" }],
    whenPredicates := ["auth.identity.tier == \"stale-tier\""],
    counters := ["auth.identity.userid"] }

/-- A store whose RateLimitPolicy already exists and still carries the
stale-tier rule. -/
def stStale : Store :=
  { tierConfigMap := none,
    rateLimitPolicy := some
      { apiGroup := "kuadrant.io", version := "v1", kind := "RateLimitPolicy",
        name := "gateway-rate-limits", nspace := "openshift-ingress",
        targetRef := gatewayTargetRef, limits := [("stale-tier", staleLimit)] },
    tokenRateLimitPolicy := none }

example :
    reconcileMaasPlatformTiers
      { listErr := none, cmErr := some "boom", rlpErr := none, trlpErr := none }
      [tierEx] mpEx stEx
      = (stEx, [TierArtifact.configMap], some "boom") := by decide

/-! ## Helper lemmas -/

theorem filterTargetTiers_length_ne_zero {tiers : List Tier} {mp : MaasPlatform}
    (h : filterTargetTiers tiers mp ≠ []) :
    ¬ (filterTargetTiers tiers mp).length = 0 := by
  simpa [List.length_eq_zero] using h

theorem setOwnership_ident (mp : MaasPlatform) (obj : UnstructuredObj) :
    (setOwnership mp obj).kind = obj.kind
  ∧ (setOwnership mp obj).nspace = obj.nspace
  ∧ (setOwnership mp obj).name = obj.name := by
  unfold setOwnership setControllerReference
  split
  · cases obj.ownerRef <;> exact ⟨rfl, rfl, rfl⟩
  · exact ⟨rfl, rfl, rfl⟩

theorem reconcileAll_foldl_platforms (aw : MaasPlatform → TierWorld) (tiers : List Tier) :
    ∀ (platforms : List MaasPlatform)
      (acc : Store × List (MaasPlatform × List TierArtifact × Option String)),
      ((platforms.foldl (reconcileAllStep aw tiers) acc).2.map (fun o => o.1))
        = acc.2.map (fun o => o.1) ++ platforms := by
  intro platforms
  induction platforms with
  | nil => intro acc; simp
  | cons mp rest ih =>
    intro acc
    rw [List.foldl_cons, ih]
    simp [reconcileAllStep]

/-! ## Claim theorems -/

/-- Claim C1, counterexample: with one matching Tier and a failing
tier-mapping ConfigMap apply, the aggregation pass attempts neither the
RateLimitPolicy nor the TokenRateLimitPolicy, contradicting the
claimed failure independence of the three artifacts. -/
theorem C1_counterexample :
    reconcileMaasPlatformTiers
      { listErr := none, cmErr := some "configmap apply failed",
        rlpErr := none, trlpErr := none }
      [tierEx] mpEx stEx
      = (stEx, [TierArtifact.configMap], some "configmap apply failed")
  ∧ ([TierArtifact.configMap].contains TierArtifact.rateLimitPolicy) = false
  ∧ ([TierArtifact.configMap].contains TierArtifact.tokenRateLimitPolicy) = false := by
  decide

/-- Claim C1, amended: over a non-empty set of matching children the three
derived artifacts are applied strictly in order (ConfigMap, then
RateLimitPolicy, then TokenRateLimitPolicy); the first failure aborts
the remaining artifacts and is returned, and the call succeeds exactly
when all three applications succeed. -/
theorem C1_sequential_artifacts (w : TierWorld) (tiers : List Tier) (mp : MaasPlatform)
    (st : Store) (hlist : w.listErr = none) (hne : filterTargetTiers tiers mp ≠ []) :
    (∀ e, w.cmErr = some e →
       reconcileMaasPlatformTiers w tiers mp st = (st, [TierArtifact.configMap], some e))
  ∧ (∀ e, w.cmErr = none → w.rlpErr = some e →
       reconcileMaasPlatformTiers w tiers mp st
         = (updateTierConfigMap (filterTargetTiers tiers mp) mp st,
            [TierArtifact.configMap, TierArtifact.rateLimitPolicy], some e))
  ∧ (∀ e, w.cmErr = none → w.rlpErr = none → w.trlpErr = some e →
       reconcileMaasPlatformTiers w tiers mp st
         = (updateRateLimitPolicy (filterTargetTiers tiers mp)
              (updateTierConfigMap (filterTargetTiers tiers mp) mp st),
            [TierArtifact.configMap, TierArtifact.rateLimitPolicy,
             TierArtifact.tokenRateLimitPolicy], some e))
  ∧ (w.cmErr = none → w.rlpErr = none → w.trlpErr = none →
       reconcileMaasPlatformTiers w tiers mp st
         = (updateTokenRateLimitPolicy (filterTargetTiers tiers mp)
              (updateRateLimitPolicy (filterTargetTiers tiers mp)
                (updateTierConfigMap (filterTargetTiers tiers mp) mp st)),
            [TierArtifact.configMap, TierArtifact.rateLimitPolicy,
             TierArtifact.tokenRateLimitPolicy], none))
  ∧ ((reconcileMaasPlatformTiers w tiers mp st).2.2 = none
       ↔ (w.cmErr = none ∧ w.rlpErr = none ∧ w.trlpErr = none)) := by
  have hlen := filterTargetTiers_length_ne_zero hne
  refine ⟨?_, ?_, ?_, ?_, ?_⟩
  · intro e hcm
    simp [reconcileMaasPlatformTiers, hlist, hlen, hcm]
  · intro e hcm hrlp
    simp [reconcileMaasPlatformTiers, hlist, hlen, hcm, hrlp]
  · intro e hcm hrlp htrlp
    simp [reconcileMaasPlatformTiers, hlist, hlen, hcm, hrlp, htrlp]
  · intro hcm hrlp htrlp
    simp [reconcileMaasPlatformTiers, hlist, hlen, hcm, hrlp, htrlp]
  · cases hcm : w.cmErr <;> cases hrlp : w.rlpErr <;> cases htrlp : w.trlpErr <;>
      simp [reconcileMaasPlatformTiers, hlist, hlen, hcm, hrlp, htrlp]

/-- Claim C1 witness: the amended theorem applied to the fixture pass in
which all three artifact applications succeed. -/
theorem C1_sequential_artifacts_witness :
    twOk.listErr = none ∧ filterTargetTiers [tierEx] mpEx ≠ []
  ∧ ((reconcileMaasPlatformTiers twOk [tierEx] mpEx stEx).2.2 = none
       ↔ (twOk.cmErr = none ∧ twOk.rlpErr = none ∧ twOk.trlpErr = none)) :=
  ⟨rfl, by decide,
   (C1_sequential_artifacts twOk [tierEx] mpEx stEx rfl (by decide)).2.2.2.2⟩

/-- Claim C3: with zero matching children the aggregation pass is a no-op:
the store (including any pre-existing tier-to-group-mapping ConfigMap
and both policies) is returned unmodified with a nil error, and the
limit maps computed from the (empty) matching set contain zero rules. -/
theorem C3_zero_children (w : TierWorld) (tiers : List Tier) (mp : MaasPlatform) (st : Store)
    (hlist : w.listErr = none) (hzero : filterTargetTiers tiers mp = []) :
    reconcileMaasPlatformTiers w tiers mp st = (st, [], none)
  ∧ buildRateLimits (filterTargetTiers tiers mp) = []
  ∧ buildTokenRateLimits (filterTargetTiers tiers mp) = [] := by
  refine ⟨?_, ?_, ?_⟩
  · simp [reconcileMaasPlatformTiers, hlist, hzero]
  · rw [hzero]; rfl
  · rw [hzero]; rfl

/-- Claim C3 witness: a platform with a pre-existing ConfigMap in the store
and no matching Tier in a non-empty Tier list. -/
theorem C3_zero_children_witness :
    twOk.listErr = none ∧ filterTargetTiers [tierEx] mpOther = []
  ∧ (reconcileMaasPlatformTiers twOk [tierEx] mpOther stEx = (stEx, [], none)
     ∧ buildRateLimits (filterTargetTiers [tierEx] mpOther) = []
     ∧ buildTokenRateLimits (filterTargetTiers [tierEx] mpOther) = []) :=
  ⟨rfl, by decide, C3_zero_children twOk [tierEx] mpOther stEx rfl (by decide)⟩

/-- Claim C5: when the Tier lookup reports not-found (child deleted), the
engine runs reconcileAllMaasPlatforms: one aggregation pass per listed
platform, in list order, covering every platform regardless of which
platform the deleted Tier referenced and regardless of per-platform
failures, and the call returns a nil error. -/
theorem C5_deletion_global_recompute (w : TierReconcileWorld) (st : Store)
    (hget : w.tierGet = GetResult.notFound) (hlist : w.platformListErr = none) :
    TierReconcile w st
      = reconcileAllMaasPlatforms none w.artifactWorld w.platforms w.tiers st
  ∧ ((TierReconcile w st).2.1.map (fun o => o.1)) = w.platforms
  ∧ (TierReconcile w st).2.2 = none := by
  have heq : TierReconcile w st
      = reconcileAllMaasPlatforms none w.artifactWorld w.platforms w.tiers st := by
    simp [TierReconcile, hget, hlist]
  refine ⟨heq, ?_, ?_⟩
  · rw [heq]
    simpa [reconcileAllMaasPlatforms]
      using reconcileAll_foldl_platforms w.artifactWorld w.tiers w.platforms (st, [])
  · rw [heq]; simp [reconcileAllMaasPlatforms]

/-- Claim C5 witness: a deleted Tier with two listed platforms, the first
of which fails its ConfigMap apply; both platforms are still processed
in order and the call returns a nil error. -/
theorem C5_deletion_global_recompute_witness :
    (TierReconcileWorld.tierGet
       { tierGet := GetResult.notFound, platformGet := GetResult.notFound,
         platformListErr := none, platforms := [mpEx, mpOther], tiers := [tierEx],
         artifactWorld := fun mp =>
           if mp.name = "platform-a" then
             { listErr := none, cmErr := some "boom", rlpErr := none, trlpErr := none }
           else twOk } = GetResult.notFound)
  ∧ ((TierReconcile
        { tierGet := GetResult.notFound, platformGet := GetResult.notFound,
          platformListErr := none, platforms := [mpEx, mpOther], tiers := [tierEx],
          artifactWorld := fun mp =>
            if mp.name = "platform-a" then
              { listErr := none, cmErr := some "boom", rlpErr := none, trlpErr := none }
            else twOk } stEx).2.1.map (fun o => o.1)) = [mpEx, mpOther] :=
  ⟨rfl,
   (C5_deletion_global_recompute
      { tierGet := GetResult.notFound, platformGet := GetResult.notFound,
        platformListErr := none, platforms := [mpEx, mpOther], tiers := [tierEx],
        artifactWorld := fun mp =>
          if mp.name = "platform-a" then
            { listErr := none, cmErr := some "boom", rlpErr := none, trlpErr := none }
          else twOk } stEx rfl rfl).2.1⟩

/-- Claim C2, counterexample: a rendered object in a namespace different
from its owning platform's is applied entirely unchanged — it gets no
owner reference, but also no descriptive labels identifying the owner,
contradicting the claimed label attachment. -/
theorem C2_counterexample :
    mpEx.nspace ≠ objCrossNs.nspace
  ∧ deployDoc mpEx true { objs := [] } objCrossNs
      = ({ objs := [objCrossNs] }, [ApplyAction.create objCrossNs])
  ∧ objCrossNs.labels = []
  ∧ objCrossNs.ownerRef = none := by decide

/-- Claim C2, amended: a rendered object in the owning platform's own
(non-empty) namespace and without a pre-existing controller reference
gets an owner reference to the platform before create/update; a
cluster-scoped or cross-namespace object is applied entirely unchanged
(no owner reference and no labels are attached); and every store call
issued by the per-document applier carries exactly the object produced
by this ownership step. -/
theorem C2_ownership_rules (mp : MaasPlatform) (obj : UnstructuredObj) (skipCM : Bool)
    (c : Cluster) :
    (obj.nspace ≠ "" → obj.nspace = mp.nspace → obj.ownerRef = none →
       setOwnership mp obj = { obj with ownerRef := some (mp.name, mp.nspace) })
  ∧ ((obj.nspace = "" ∨ obj.nspace ≠ mp.nspace) → setOwnership mp obj = obj)
  ∧ (∀ a, a ∈ (deployDoc mp skipCM c obj).2 →
       a = ApplyAction.create (setOwnership mp obj)
       ∨ a = ApplyAction.update (setOwnership mp obj)) := by
  refine ⟨?_, ?_, ?_⟩
  · intro hne hsame hown
    have hne2 : ¬ mp.nspace = "" := by rw [← hsame]; exact hne
    simp [setOwnership, setControllerReference, hsame, hne2, hown]
  · intro h
    rcases h with h | h
    · simp [setOwnership, h]
    · simp [setOwnership, h]
  · intro a ha
    unfold deployDoc at ha
    split at ha
    · simp at ha
    · split at ha
      · simp at ha
      · cases h3 : existsObj c (setOwnership mp obj).kind (setOwnership mp obj).nspace
            (setOwnership mp obj).name with
        | false =>
          simp [applyUnstructured, h3] at ha
          left; exact ha
        | true =>
          simp [applyUnstructured, h3] at ha
          right; exact ha

/-- Claim C2 witness: a same-namespace object with no pre-existing owner
reference gets the platform attached as controller owner. -/
theorem C2_ownership_rules_witness :
    (("maas-ns" : String) ≠ "" ∧ ("maas-ns" : String) = mpEx.nspace
     ∧ (UnstructuredObj.ownerRef
          { kind := "Service", name := "maas-api", nspace := "maas-ns",
            ownerRef := none, labels := [] }) = none)
  ∧ setOwnership mpEx
      { kind := "Service", name := "maas-api", nspace := "maas-ns",
        ownerRef := none, labels := [] }
      = { kind := "Service", name := "maas-api", nspace := "maas-ns",
          ownerRef := some (mpEx.name, mpEx.nspace), labels := [] } :=
  ⟨⟨by decide, by decide, rfl⟩,
   (C2_ownership_rules mpEx
      { kind := "Service", name := "maas-api", nspace := "maas-ns",
        ownerRef := none, labels := [] } false { objs := [] }).1
     (by decide) (by decide) rfl⟩

/-- Claim C8: for a PersistentVolumeClaim document in a render pass, an
already existing object of the same identity makes the pass skip
silently — no store call is issued and the cluster (including the
existing claim) is unchanged; when no such object exists, the claim
is created. -/
theorem C8_pvc_immutable (mp : MaasPlatform) (skipCM : Bool) (c : Cluster)
    (obj : UnstructuredObj) (hk : obj.kind = "PersistentVolumeClaim") :
    (existsObj c obj.kind obj.nspace obj.name = true →
       deployDoc mp skipCM c obj = (c, []))
  ∧ (existsObj c obj.kind obj.nspace obj.name = false →
       deployDoc mp skipCM c obj
         = ({ objs := c.objs ++ [setOwnership mp obj] },
            [ApplyAction.create (setOwnership mp obj)])) := by
  have hident := setOwnership_ident mp obj
  have hcm : ¬ (skipCM && obj.kind = "ConfigMap" && obj.name = "tier-to-group-mapping") = true := by
    simp [hk]
  constructor
  · intro hex
    unfold deployDoc
    rw [if_neg hcm, if_pos (by rw [hk] at hex ⊢; simp [hex])]
  · intro hex
    have hpvc : ¬ (obj.kind = "PersistentVolumeClaim"
        && existsObj c obj.kind obj.nspace obj.name) = true := by
      rw [hk] at hex ⊢; simp [hex]
    unfold deployDoc
    rw [if_neg hcm, if_neg hpvc]
    have h3 : existsObj c (setOwnership mp obj).kind (setOwnership mp obj).nspace
        (setOwnership mp obj).name = false := by
      rw [hident.1, hident.2.1, hident.2.2]; exact hex
    simp [applyUnstructured, h3]

/-- Claim C8 witness: re-applying a PVC that already exists issues no store
call; the same PVC against an empty cluster is created. -/
theorem C8_pvc_immutable_witness :
    (UnstructuredObj.kind
       { kind := "PersistentVolumeClaim", name := "data", nspace := "maas-api",
         ownerRef := none, labels := [] } = "PersistentVolumeClaim")
  ∧ deployDoc mpEx false
      { objs := [{ kind := "PersistentVolumeClaim", name := "data", nspace := "maas-api",
                   ownerRef := none, labels := [] }] }
      { kind := "PersistentVolumeClaim", name := "data", nspace := "maas-api",
        ownerRef := none, labels := [] }
      = ({ objs := [{ kind := "PersistentVolumeClaim", name := "data", nspace := "maas-api",
                      ownerRef := none, labels := [] }] }, []) :=
  ⟨rfl,
   (C8_pvc_immutable mpEx false
      { objs := [{ kind := "PersistentVolumeClaim", name := "data", nspace := "maas-api",
                   ownerRef := none, labels := [] }] }
      { kind := "PersistentVolumeClaim", name := "data", nspace := "maas-api",
        ownerRef := none, labels := [] } rfl).1 (by decide)⟩

/-- Claim C9: when the platform is absent the reconcile call succeeds
having attempted nothing; when present, the three manifest groups are
applied in the fixed order maas-api, networking, gateway-auth-policy
(after the namespace bootstrap); a failing group ends the attempted
step list at that group — later groups and the status update are never
attempted, the group's error is returned, and the earlier steps remain
performed (no rollback step exists). -/
theorem C9_reconcile_control_flow (w : PlatformWorld) :
    (w.platformGet = GetResult.notFound → MaasPlatformReconcile w = ([], none))
  ∧ (∀ mp e, w.platformGet = GetResult.found mp → w.namespacesResult = none →
       w.deploy maasApiManifest = some e →
       MaasPlatformReconcile w
         = ([ReconcileStep.ensureNamespaces,
             ReconcileStep.deployManifest maasApiManifest], some e))
  ∧ (∀ mp e, w.platformGet = GetResult.found mp → w.namespacesResult = none →
       w.deploy maasApiManifest = none → w.deploy networkingManifest = some e →
       MaasPlatformReconcile w
         = ([ReconcileStep.ensureNamespaces,
             ReconcileStep.deployManifest maasApiManifest,
             ReconcileStep.deployManifest networkingManifest], some e))
  ∧ (∀ mp e, w.platformGet = GetResult.found mp → w.namespacesResult = none →
       w.deploy maasApiManifest = none → w.deploy networkingManifest = none →
       w.deploy gatewayAuthPolicyManifest = some e →
       MaasPlatformReconcile w
         = ([ReconcileStep.ensureNamespaces,
             ReconcileStep.deployManifest maasApiManifest,
             ReconcileStep.deployManifest networkingManifest,
             ReconcileStep.deployManifest gatewayAuthPolicyManifest], some e))
  ∧ (∀ mp, w.platformGet = GetResult.found mp → w.namespacesResult = none →
       w.deploy maasApiManifest = none → w.deploy networkingManifest = none →
       w.deploy gatewayAuthPolicyManifest = none → w.statusResult = none →
       MaasPlatformReconcile w
         = ([ReconcileStep.ensureNamespaces,
             ReconcileStep.deployManifest maasApiManifest,
             ReconcileStep.deployManifest networkingManifest,
             ReconcileStep.deployManifest gatewayAuthPolicyManifest,
             ReconcileStep.updateStatus], none)) := by
  refine ⟨?_, ?_, ?_, ?_, ?_⟩
  · intro h
    simp [MaasPlatformReconcile, h]
  · intro mp e h1 h2 h3
    simp [MaasPlatformReconcile, h1, h2, h3]
  · intro mp e h1 h2 h3 h4
    simp [MaasPlatformReconcile, h1, h2, h3, h4]
  · intro mp e h1 h2 h3 h4 h5
    simp [MaasPlatformReconcile, h1, h2, h3, h4, h5]
  · intro mp h1 h2 h3 h4 h5 h6
    simp [MaasPlatformReconcile, h1, h2, h3, h4, h5, h6]

/-- Claim C9 witness: an all-success reconcile over a present platform
performs the five steps in order. -/
theorem C9_reconcile_control_flow_witness :
    (PlatformWorld.platformGet
       { platformGet := GetResult.found mpEx, namespacesResult := none,
         deploy := fun _ => none, statusResult := none } = GetResult.found mpEx)
  ∧ MaasPlatformReconcile
      { platformGet := GetResult.found mpEx, namespacesResult := none,
        deploy := fun _ => none, statusResult := none }
      = ([ReconcileStep.ensureNamespaces,
          ReconcileStep.deployManifest maasApiManifest,
          ReconcileStep.deployManifest networkingManifest,
          ReconcileStep.deployManifest gatewayAuthPolicyManifest,
          ReconcileStep.updateStatus], none) :=
  ⟨rfl,
   (C9_reconcile_control_flow
      { platformGet := GetResult.found mpEx, namespacesResult := none,
        deploy := fun _ => none, statusResult := none }).2.2.2.2
     mpEx rfl rfl rfl rfl rfl rfl⟩

theorem splitDocsLoop_mem_ne_nil :
    ∀ (lines : List (List Char)) (cur d : List Char),
      d ∈ splitDocsLoop lines cur → d ≠ [] := by
  intro lines
  induction lines with
  | nil =>
    intro cur d hd
    unfold splitDocsLoop at hd
    split at hd
    · rename_i h
      have hdc : d = cur := by simpa using hd
      subst hdc
      intro hnil
      rw [hnil] at h
      simp at h
    · simp at hd
  | cons l rest ih =>
    intro cur d hd
    unfold splitDocsLoop at hd
    split at hd
    · rename_i h
      rcases List.mem_cons.mp hd with h1 | h1
      · subst h1
        intro hnil
        rw [hnil] at h
        simp at h
      · exact ih [] d h1
    · exact ih _ d hd

/-- Claim C10: the document splitter is total and infallible — for every
input blob it returns a nil error, and every emitted byte block is
non-empty. -/
theorem C10_split_total_nonempty (data : List Char) :
    (splitYAMLDocuments data).2 = none
  ∧ ((splitYAMLDocuments data).1.all (fun d => !d.isEmpty)) = true := by
  refine ⟨rfl, ?_⟩
  rw [List.all_eq_true]
  intro d hd
  have hne := splitDocsLoop_mem_ne_nil (splitLines data) [] d hd
  simpa using hne

theorem splitLines_ne_nil : ∀ data : List Char, splitLines data ≠ [] := by
  intro data
  cases data with
  | nil => simp [splitLines]
  | cons c cs =>
    unfold splitLines
    by_cases h : c = '\n'
    · simp [h]
    · rw [if_neg h]
      cases splitLines cs <;> simp

theorem splitLines_singleton : ∀ (data l : List Char), splitLines data = [l] → data = l := by
  intro data
  induction data with
  | nil =>
    intro l h
    simp [splitLines] at h
    exact h.symm
  | cons c cs ih =>
    intro l h
    unfold splitLines at h
    by_cases hc : c = '\n'
    · rw [if_pos hc] at h
      have hne := splitLines_ne_nil cs
      simp at h
      exact absurd h.2 hne
    · rw [if_neg hc] at h
      cases h' : splitLines cs with
      | nil => exact absurd h' (splitLines_ne_nil cs)
      | cons l' ls' =>
        rw [h'] at h
        simp at h
        obtain ⟨hcl, hls⟩ := h
        rw [hls] at h'
        have hcs := ih l' h'
        rw [← hcl, hcs]

theorem goodLines_cons_of_not_sep {l : List Char} {rest : List (List Char)}
    (h : isSeparatorLine l = false) : goodLines (l :: rest) = goodLines rest := by
  cases rest with
  | nil => simp [goodLines, h]
  | cons l2 rest2 =>
    rw [goodLines, if_neg (by simp [h])]

theorem goodLines_cons_of_sep {l : List Char} {rest : List (List Char)}
    (hsep : isSeparatorLine l = true) (hg : goodLines (l :: rest) = true) :
    ∃ l2 rest2, rest = l2 :: rest2 ∧ isSeparatorLine l2 = false
      ∧ (rest2 = [] → l2 ≠ []) ∧ goodLines rest = true := by
  cases rest with
  | nil =>
    unfold goodLines at hg
    rw [hsep] at hg
    simp at hg
  | cons l2 rest2 =>
    unfold goodLines at hg
    rw [if_pos hsep] at hg
    simp only [Bool.and_eq_true] at hg
    obtain ⟨⟨hnsep, hlast⟩, hgrest⟩ := hg
    refine ⟨l2, rest2, rfl, by simpa using hnsep, ?_, hgrest⟩
    intro h2nil
    rw [h2nil] at hlast
    simp at hlast
    simpa using hlast

theorem splitDocsLoop_eq_specLoop :
    ∀ (lines : List (List Char)) (cur : List Char),
      goodLines lines = true →
      (lines = [] → cur ≠ []) →
      (∀ l rest, lines = l :: rest → isSeparatorLine l = true → cur ≠ []) →
      (∀ l, lines = [l] → cur ≠ [] ∨ l ≠ []) →
      splitDocsLoop lines cur = splitDocsSpecLoop lines cur := by
  intro lines
  induction lines with
  | nil =>
    intro cur hg h1 h2 h3
    have hcur := h1 rfl
    unfold splitDocsLoop splitDocsSpecLoop
    rw [if_pos (List.length_pos.mpr hcur)]
  | cons l rest ih =>
    intro cur hg h1 h2 h3
    by_cases hsep : isSeparatorLine l = true
    · have hcur : cur ≠ [] := h2 l rest rfl hsep
      obtain ⟨l2, rest2, hr, hnsep, hlast, hgrest⟩ := goodLines_cons_of_sep hsep hg
      have hstep1 : splitDocsLoop (l :: rest) cur = cur :: splitDocsLoop rest [] := by
        rw [splitDocsLoop, if_pos (by simp [hsep, List.length_pos.mpr hcur])]
      have hstep2 : splitDocsSpecLoop (l :: rest) cur = cur :: splitDocsSpecLoop rest [] := by
        rw [splitDocsSpecLoop, if_pos hsep]
      rw [hstep1, hstep2]
      congr 1
      apply ih
      · exact hgrest
      · intro h; rw [h] at hr; cases hr
      · intro l' rest' heq hsep'
        rw [hr] at heq
        injection heq with hA hB
        rw [← hA] at hsep'
        rw [hsep'] at hnsep
        cases hnsep
      · intro l' heq
        right
        rw [hr] at heq
        injection heq with hA hB
        rw [← hA]
        exact hlast hB
    · have hsepf : isSeparatorLine l = false := by
        cases hval : isSeparatorLine l
        · rfl
        · exact absurd hval hsep
      have hg' : goodLines rest = true := by
        rw [← goodLines_cons_of_not_sep hsepf]
        exact hg
      have hstep1 : splitDocsLoop (l :: rest) cur
          = splitDocsLoop rest (cur ++ l ++ (if rest.isEmpty then [] else ['\n'])) := by
        rw [splitDocsLoop, if_neg (by simp [hsepf])]
      have hstep2 : splitDocsSpecLoop (l :: rest) cur
          = splitDocsSpecLoop rest (cur ++ l ++ (if rest.isEmpty then [] else ['\n'])) := by
        rw [splitDocsSpecLoop, if_neg (by simp [hsepf])]
      rw [hstep1, hstep2]
      apply ih
      · exact hg'
      · intro hrest
        subst hrest
        have h3' := h3 l rfl
        simp only [List.isEmpty_nil, if_pos rfl]
        simp [List.append_eq_nil]
        tauto
      · intro l' rest' heq hsep'
        subst heq
        simp
      · intro l' heq
        left
        subst heq
        simp

theorem dropWhile_isEmpty_of_head_ne :
    ∀ (ds : List (List Char)), (∀ d, d ∈ ds → d ≠ []) →
      ds.dropWhile (fun d => d.isEmpty) = ds := by
  intro ds h
  cases ds with
  | nil => rfl
  | cons d rest =>
    have hd : d ≠ [] := h d (by simp)
    rw [List.dropWhile_cons, if_neg (by simpa using hd)]

/-- Claim C6, counterexample: on an input beginning with a separator line,
the splitter does not start a new document at the separator and does
not drop the empty leading document by consuming the separator —
instead the separator line is retained verbatim inside the first
emitted document, so the output differs from the spec splitting. -/
theorem C6_counterexample :
    (splitYAMLDocuments "---\na".data).1 = ["---\na".data]
  ∧ splitDocumentsSpec "---\na".data = ["a".data]
  ∧ (splitYAMLDocuments "---\na".data).1 ≠ splitDocumentsSpec "---\na".data := by
  decide

/-- Claim C6, amended: a separator line starts a new document (and is
dropped from the output) only when the accumulated current document is
non-empty; a separator line seen while the current document is empty —
at the start of the input or right after another separator — is kept
verbatim as ordinary text, and no empty document is ever emitted.  On
well-formed inputs, where no separator line is first, last, adjacent
to another separator, or followed only by a single empty line, the
splitter agrees exactly with the spec splitting (split at every
separator, drop empty leading documents). -/
theorem C6_split_documents (data : List Char) (hgood : goodSplitInput data = true) :
    (splitYAMLDocuments data).1 = splitDocumentsSpec data := by
  unfold goodSplitInput at hgood
  cases hl : splitLines data with
  | nil =>
    unfold splitYAMLDocuments splitDocumentsSpec
    rw [hl]
    rfl
  | cons l rest =>
    rw [hl] at hgood
    simp only [Bool.and_eq_true] at hgood
    obtain ⟨hnsep, hg⟩ := hgood
    have hnsepf : isSeparatorLine l = false := by simpa using hnsep
    by_cases hdeg : l = [] ∧ rest = []
    · obtain ⟨h5, h6⟩ := hdeg
      subst h5; subst h6
      unfold splitYAMLDocuments splitDocumentsSpec
      rw [hl]
      decide
    · have heq : splitDocsLoop (l :: rest) [] = splitDocsSpecLoop (l :: rest) [] := by
        apply splitDocsLoop_eq_specLoop
        · exact hg
        · intro h; cases h
        · intro l' rest' heqc hsep'
          injection heqc with hA hB
          rw [← hA] at hsep'
          rw [hsep'] at hnsepf
          cases hnsepf
        · intro l' heqc
          right
          injection heqc with hA hB
          rw [← hA]
          intro hlnil
          exact hdeg ⟨hlnil, hB⟩
      have hall : ∀ d, d ∈ splitDocsSpecLoop (l :: rest) [] → d ≠ [] := by
        intro d hd
        rw [← heq] at hd
        exact splitDocsLoop_mem_ne_nil (l :: rest) [] d hd
      unfold splitYAMLDocuments splitDocumentsSpec
      rw [hl, heq, dropWhile_isEmpty_of_head_ne _ hall]

/-- Claim C6 witness: a well-formed two-document input on which the
splitter and the spec splitting agree. -/
theorem C6_split_documents_witness :
    goodSplitInput "a: 1\n---\nb: 2\n".data = true
  ∧ (splitYAMLDocuments "a: 1\n---\nb: 2\n".data).1
      = splitDocumentsSpec "a: 1\n---\nb: 2\n".data :=
  ⟨by decide, C6_split_documents ("a: 1\n---\nb: 2\n".data) (by decide)⟩

theorem mapInsert_of_not_hasKey {α : Type} {m : List (String × α)} {k : String} (v : α)
    (h : mapHasKey m k = false) : mapInsert m k v = m ++ [(k, v)] := by
  unfold mapInsert
  rw [if_neg (by rw [h]; simp)]

theorem mapHasKey_append {α : Type} (m1 m2 : List (String × α)) (k : String) :
    mapHasKey (m1 ++ m2) k = (mapHasKey m1 k || mapHasKey m2 k) := by
  unfold mapHasKey
  exact List.any_append

theorem foldl_mapInsert_filterMap {α β : Type} (keyOf : Tier → String)
    (cfgOf : Tier → Option α) (valOf : Tier → α → β) :
    ∀ (tiers : List Tier) (m : List (String × β)),
      (tiers.map keyOf).Nodup →
      (∀ t ∈ tiers, (cfgOf t).isSome → mapHasKey m (keyOf t) = false) →
      tiers.foldl
        (fun limits t =>
          Option.elim (cfgOf t) limits
            (fun cfg => mapInsert limits (keyOf t) (valOf t cfg))) m
        = m ++ tiers.filterMap (fun t => (cfgOf t).map (fun cfg => (keyOf t, valOf t cfg))) := by
  intro tiers
  induction tiers with
  | nil => intro m _ _; simp
  | cons t rest ih =>
    intro m hnd hfresh
    rw [List.map_cons, List.nodup_cons] at hnd
    obtain ⟨hnotmem, hndrest⟩ := hnd
    rw [List.foldl_cons, List.filterMap_cons]
    cases hent : cfgOf t with
    | none =>
      simp only [hent, Option.elim_none, Option.map_none']
      exact ih m hndrest (fun t' ht' hs => hfresh t' (List.mem_cons_of_mem t ht') hs)
    | some cfg =>
      simp only [hent, Option.elim_some, Option.map_some']
      have hfk : mapHasKey m (keyOf t) = false :=
        hfresh t (List.mem_cons_self t rest) (by rw [hent]; rfl)
      rw [mapInsert_of_not_hasKey (valOf t cfg) hfk]
      rw [ih (m ++ [(keyOf t, valOf t cfg)]) hndrest ?fresh]
      · rw [List.append_assoc]
        rfl
      case fresh =>
        intro t' ht' hs
        rw [mapHasKey_append]
        have h1 : mapHasKey m (keyOf t') = false :=
          hfresh t' (List.mem_cons_of_mem t ht') hs
        have h2 : mapHasKey [(keyOf t, valOf t cfg)] (keyOf t') = false := by
          unfold mapHasKey
          simp only [List.any_cons, List.any_nil, Bool.or_false]
          have hkk : keyOf t ≠ keyOf t' := by
            intro hkk
            exact hnotmem (hkk ▸ List.mem_map_of_mem keyOf ht')
          simpa using hkk
        rw [h1, h2]
        rfl

theorem buildRateLimits_eq_filterMap (tiers : List Tier)
    (hnd : (tiers.map resolvedTierName).Nodup) :
    buildRateLimits tiers
      = tiers.filterMap
          (fun t => (t.spec.rateLimits).map
            (fun cfg => (resolvedTierName t, rateLimitEntry t cfg))) := by
  have h := foldl_mapInsert_filterMap resolvedTierName (fun t => t.spec.rateLimits)
    rateLimitEntry tiers [] hnd (by intro t _ _; rfl)
  rw [List.nil_append] at h
  have hfun :
      (fun (limits : List (String × TierLimit)) (t : Tier) =>
        match t.spec.rateLimits with
        | none => limits
        | some cfg => mapInsert limits (resolvedTierName t) (rateLimitEntry t cfg))
      = (fun (limits : List (String × TierLimit)) (t : Tier) =>
        Option.elim (t.spec.rateLimits) limits
          (fun cfg => mapInsert limits (resolvedTierName t) (rateLimitEntry t cfg))) := by
    funext limits t
    cases t.spec.rateLimits <;> rfl
  unfold buildRateLimits
  rw [hfun]
  exact h

theorem strAppend_right_injective (suf : String) :
    Function.Injective (fun s : String => s ++ suf) := by
  intro a b hab
  have hd : a.data ++ suf.data = b.data ++ suf.data := by
    have h1 := congrArg String.data hab
    rw [String.data_append a suf, String.data_append b suf] at h1
    exact h1
  have h2 : a.data = b.data := List.append_cancel_right hd
  cases a; cases b
  simp only [] at h2
  rw [h2]

theorem buildTokenRateLimits_eq_filterMap (tiers : List Tier)
    (hnd : (tiers.map resolvedTierName).Nodup) :
    buildTokenRateLimits tiers
      = tiers.filterMap
          (fun t => (t.spec.tokenRateLimits).map
            (fun cfg => (resolvedTierName t ++ "-user-tokens", tokenRateLimitEntry t cfg))) := by
  have hnd2 : (tiers.map (fun t => resolvedTierName t ++ "-user-tokens")).Nodup := by
    have hmm : tiers.map (fun t => resolvedTierName t ++ "-user-tokens")
        = (tiers.map resolvedTierName).map (fun s => s ++ "-user-tokens") := by
      rw [List.map_map]
      rfl
    rw [hmm]
    exact hnd.map (strAppend_right_injective "-user-tokens")
  have h := foldl_mapInsert_filterMap (fun t => resolvedTierName t ++ "-user-tokens")
    (fun t => t.spec.tokenRateLimits) tokenRateLimitEntry tiers [] hnd2 (by intro t _ _; rfl)
  rw [List.nil_append] at h
  have hfun :
      (fun (limits : List (String × TierLimit)) (t : Tier) =>
        match t.spec.tokenRateLimits with
        | none => limits
        | some cfg =>
          mapInsert limits (resolvedTierName t ++ "-user-tokens") (tokenRateLimitEntry t cfg))
      = (fun (limits : List (String × TierLimit)) (t : Tier) =>
        Option.elim (t.spec.tokenRateLimits) limits
          (fun cfg =>
            mapInsert limits (resolvedTierName t ++ "-user-tokens") (tokenRateLimitEntry t cfg))) := by
    funext limits t
    cases t.spec.tokenRateLimits <;> rfl
  unfold buildTokenRateLimits
  rw [hfun]
  exact h

/-- Claim C4, counterexample: two matching children in different namespaces
sharing the name "tier-a", both declaring a RateLimitConfig, produce one
map entry rather than one per child (the later child overwrites the
earlier at the shared key); the when-predicate string carries an
"auth." prefix — it is auth.identity.tier == "tier-a", not
identity.tier == "tier-a" as claimed; and recomputing against a store
whose RateLimitPolicy already exists leaves that policy entirely
unchanged — the second Get clobbers the built spec, so the stale-tier
rule survives and the new tier's rule is never written: the limit map
is not replaced on recompute. -/
theorem C4_counterexample :
    (buildRateLimits [tierDupA1, tierDupA2]).length = 1
  ∧ mapLookup (buildRateLimits [tierDupA1, tierDupA2]) "tier-a"
      = some { rates := [{ limit := 20, window := "2m" }],
               whenPredicates := ["auth.identity.tier == \"tier-a\""],
               counters := ["auth.identity.userid"] }
  ∧ ("auth.identity.tier == \"tier-a\"" : String) ≠ "identity.tier == \"tier-a\""
  ∧ updateRateLimitPolicy [tierDupA1] stStale = stStale
  ∧ ((updateRateLimitPolicy [tierDupA1] stStale).rateLimitPolicy.map
      (fun p => mapHasKey p.limits "stale-tier")) = some true
  ∧ ((updateRateLimitPolicy [tierDupA1] stStale).rateLimitPolicy.map
      (fun p => mapHasKey p.limits "tier-a")) = some false := by
  decide

/-- Claim C4, amended: for children whose resolved tier names (object name,
falling back to generateName plus "-tier") are pairwise distinct, the
freshly computed RateLimitPolicy limit map has exactly one entry per
child declaring a RateLimitConfig, in child order, keyed by the
resolved name, with one rate taken from the config's limit and window,
the when-predicate auth.identity.tier == "<tierName>", and counters
defaulting to the user-identity counter; the TokenRateLimitPolicy map
has the identical shape keyed <tierName>-user-tokens and sourced from
TokenRateLimitConfig; children without the respective config
contribute no entry.  The computed map is persisted only when the
policy object does not yet exist (the create path); when the policy
already exists, the second Get into the same object overwrites the
built spec with the live object before Update, so the existing limit
map is written back unchanged and stale tiers are not dropped. -/
theorem C4_limit_maps (tiers : List Tier) (hnd : (tiers.map resolvedTierName).Nodup) :
    buildRateLimits tiers
      = tiers.filterMap (fun t => (t.spec.rateLimits).map (fun cfg =>
          (resolvedTierName t,
           ({ rates := [{ limit := cfg.limit, window := cfg.window }],
              whenPredicates := ["auth.identity.tier == \"" ++ resolvedTierName t ++ "\""],
              counters := if cfg.counters = [] then ["auth.identity.userid"] else cfg.counters }
            : TierLimit))))
  ∧ buildTokenRateLimits tiers
      = tiers.filterMap (fun t => (t.spec.tokenRateLimits).map (fun cfg =>
          (resolvedTierName t ++ "-user-tokens",
           ({ rates := [{ limit := cfg.limit, window := cfg.window }],
              whenPredicates := ["auth.identity.tier == \"" ++ resolvedTierName t ++ "\""],
              counters := if cfg.counters = [] then ["auth.identity.userid"] else cfg.counters }
            : TierLimit))))
  ∧ (∀ st : Store, st.rateLimitPolicy = none →
       (updateRateLimitPolicy tiers st).rateLimitPolicy
         = some { apiGroup := "kuadrant.io", version := "v1", kind := "RateLimitPolicy",
                  name := "gateway-rate-limits", nspace := "openshift-ingress",
                  targetRef := gatewayTargetRef, limits := buildRateLimits tiers })
  ∧ (∀ st : Store, ∀ live : KuadrantPolicy, st.rateLimitPolicy = some live →
       updateRateLimitPolicy tiers st = st)
  ∧ (∀ st : Store, st.tokenRateLimitPolicy = none →
       (updateTokenRateLimitPolicy tiers st).tokenRateLimitPolicy
         = some { apiGroup := "kuadrant.io", version := "v1alpha1",
                  kind := "TokenRateLimitPolicy",
                  name := "gateway-token-rate-limits", nspace := "openshift-ingress",
                  targetRef := gatewayTargetRef, limits := buildTokenRateLimits tiers })
  ∧ (∀ st : Store, ∀ live : KuadrantPolicy, st.tokenRateLimitPolicy = some live →
       updateTokenRateLimitPolicy tiers st = st) := by
  refine ⟨buildRateLimits_eq_filterMap tiers hnd,
    buildTokenRateLimits_eq_filterMap tiers hnd, ?_, ?_, ?_, ?_⟩
  · intro st h
    unfold updateRateLimitPolicy
    rw [h]
  · intro st live h
    obtain ⟨cm, rlp, trlp⟩ := st
    simp only [] at h
    subst h
    rfl
  · intro st h
    unfold updateTokenRateLimitPolicy
    rw [h]
  · intro st live h
    obtain ⟨cm, rlp, trlp⟩ := st
    simp only [] at h
    subst h
    rfl

/-- Claim C4 witness: the distinct-name fixture pair against a store with
no pre-existing RateLimitPolicy, so the create path persists exactly
the limit map recomputed from the children. -/
theorem C4_limit_maps_witness :
    ([tierDupA1, tierEx].map resolvedTierName).Nodup
  ∧ stEx.rateLimitPolicy = none
  ∧ (updateRateLimitPolicy [tierDupA1, tierEx] stEx).rateLimitPolicy
      = some { apiGroup := "kuadrant.io", version := "v1", kind := "RateLimitPolicy",
               name := "gateway-rate-limits", nspace := "openshift-ingress",
               targetRef := gatewayTargetRef,
               limits := buildRateLimits [tierDupA1, tierEx] } :=
  ⟨by decide, rfl, (C4_limit_maps [tierDupA1, tierEx] (by decide)).2.2.1 stEx rfl⟩

theorem startsWith_append_self :
    ∀ (pat rest : List Char), startsWith (pat ++ rest) pat = true := by
  intro pat
  induction pat with
  | nil => intro rest; cases rest <;> rfl
  | cons p ps ih =>
    intro rest
    rw [List.cons_append]
    simp only [startsWith]
    rw [ih rest]
    simp

theorem startsWith_append_false :
    ∀ (a t pat : List Char), startsWith a (pat.take a.length) = false →
      startsWith (a ++ t) pat = false := by
  intro a
  induction a with
  | nil =>
    intro t pat h
    simp only [List.length_nil, List.take_zero] at h
    cases pat <;> simp_all [startsWith]
  | cons c a' ih =>
    intro t pat h
    cases pat with
    | nil => simp [startsWith] at h
    | cons p ps =>
      simp only [List.length_cons, List.take_succ_cons, startsWith] at h
      simp only [List.cons_append, startsWith]
      cases hcp : c == p with
      | false => simp
      | true =>
        rw [hcp] at h
        simp only [Bool.true_and] at h ⊢
        exact ih t ps h

theorem replaceAllGo_skip_append :
    ∀ (a rest pat rep : List Char),
      replaceAllGo (a ++ rest) a.length pat rep = replaceAllGo rest 0 pat rep := by
  intro a
  induction a with
  | nil => intro rest pat rep; rfl
  | cons c a' ih =>
    intro rest pat rep
    simp only [List.cons_append, List.length_cons]
    rw [replaceAllGo]
    exact ih rest pat rep

theorem replaceAllGo_no_match (c : Char) (cs pat rep : List Char)
    (h : startsWith (c :: cs) pat = false) :
    replaceAllGo (c :: cs) 0 pat rep = c :: replaceAllGo cs 0 pat rep := by
  rw [replaceAllGo, if_neg (by rw [h]; simp)]

theorem replaceAllGo_lit (pat : List Char) (hpat : pat.head? = some '$') :
    ∀ (a rest rep : List Char), noDollar a = true →
      replaceAllGo (a ++ rest) 0 pat rep = a ++ replaceAllGo rest 0 pat rep := by
  intro a
  induction a with
  | nil => intro rest rep _; rfl
  | cons c a' ih =>
    intro rest rep hnd
    unfold noDollar at hnd
    rw [List.all_cons, Bool.and_eq_true] at hnd
    obtain ⟨hc, ha'⟩ := hnd
    obtain ⟨ps, hps⟩ : ∃ ps, pat = '$' :: ps := by
      cases pat with
      | nil => simp at hpat
      | cons p ps =>
        simp only [List.head?_cons, Option.some.injEq] at hpat
        exact ⟨ps, by rw [hpat]⟩
    have hsw : startsWith (c :: (a' ++ rest)) pat = false := by
      rw [hps]
      simp only [startsWith]
      have : (c == '$') = false := by simpa using hc
      rw [this]
      simp
    rw [List.cons_append, replaceAllGo_no_match c (a' ++ rest) pat rep hsw,
      ih rest rep ha']
    rfl

theorem replaceAllGo_match (pat : List Char) (hpat : pat ≠ []) :
    ∀ (rest rep : List Char),
      replaceAllGo (pat ++ rest) 0 pat rep = rep ++ replaceAllGo rest 0 pat rep := by
  intro rest rep
  cases hp : pat with
  | nil => exact absurd hp hpat
  | cons p ps =>
    have hsw : startsWith ((p :: ps) ++ rest) (p :: ps) = true :=
      startsWith_append_self (p :: ps) rest
    rw [List.cons_append, replaceAllGo,
      if_pos (by rw [List.cons_append] at hsw; rw [hsw]; simp)]
    have hlen : (p :: ps).length - 1 = ps.length := by simp
    rw [hlen, replaceAllGo_skip_append ps rest (p :: ps) rep]

theorem replaceAll_pass_braced :
    ∀ (segs : List Seg) (v : List Char), litsNoDollar segs = true → noDollar v = true →
      replaceAllGo (renderSegs segs) 0 "${CLUSTER_DOMAIN}".data v
        = renderSegs (segs.map (substBracedSeg v)) := by
  intro segs
  induction segs with
  | nil => intro v _ _; rfl
  | cons s rest ih =>
    intro v hl hv
    unfold litsNoDollar at hl
    rw [List.all_cons, Bool.and_eq_true] at hl
    obtain ⟨hs, hrest⟩ := hl
    have ihr := ih v hrest hv
    cases s with
    | lit sl =>
      have hsl : noDollar sl = true := hs
      rw [show renderSegs (Seg.lit sl :: rest) = sl ++ renderSegs rest from rfl]
      rw [replaceAllGo_lit "${CLUSTER_DOMAIN}".data (by decide) sl (renderSegs rest) v hsl, ihr]
      rfl
    | bracedVar =>
      rw [show renderSegs (Seg.bracedVar :: rest)
            = "${CLUSTER_DOMAIN}".data ++ renderSegs rest from rfl]
      rw [replaceAllGo_match "${CLUSTER_DOMAIN}".data (by decide) (renderSegs rest) v, ihr]
      rfl
    | bareVar =>
      have hcons : "$CLUSTER_DOMAIN".data = '$' :: "CLUSTER_DOMAIN".data := by decide
      have hsw : startsWith ("$CLUSTER_DOMAIN".data ++ renderSegs rest)
          "${CLUSTER_DOMAIN}".data = false := by
        apply startsWith_append_false
        decide
      rw [show renderSegs (Seg.bareVar :: rest)
            = "$CLUSTER_DOMAIN".data ++ renderSegs rest from rfl]
      rw [hcons, List.cons_append]
      rw [replaceAllGo_no_match '$' ("CLUSTER_DOMAIN".data ++ renderSegs rest)
        "${CLUSTER_DOMAIN}".data v
        (by rw [← List.cons_append, ← hcons]; exact hsw)]
      rw [replaceAllGo_lit "${CLUSTER_DOMAIN}".data (by decide) "CLUSTER_DOMAIN".data
        (renderSegs rest) v (by decide), ihr]
      rfl

theorem replaceAll_pass_bare :
    ∀ (segs : List Seg) (v : List Char), litsNoDollar segs = true → noDollar v = true →
      replaceAllGo (renderSegs (segs.map (substBracedSeg v))) 0 "$CLUSTER_DOMAIN".data v
        = renderWith v segs := by
  intro segs
  induction segs with
  | nil => intro v _ _; rfl
  | cons s rest ih =>
    intro v hl hv
    unfold litsNoDollar at hl
    rw [List.all_cons, Bool.and_eq_true] at hl
    obtain ⟨hs, hrest⟩ := hl
    have ihr := ih v hrest hv
    cases s with
    | lit sl =>
      have hsl : noDollar sl = true := hs
      rw [show renderSegs ((Seg.lit sl :: rest).map (substBracedSeg v))
            = sl ++ renderSegs (rest.map (substBracedSeg v)) from rfl]
      rw [replaceAllGo_lit "$CLUSTER_DOMAIN".data (by decide) sl
        (renderSegs (rest.map (substBracedSeg v))) v hsl, ihr]
      rfl
    | bracedVar =>
      rw [show renderSegs ((Seg.bracedVar :: rest).map (substBracedSeg v))
            = v ++ renderSegs (rest.map (substBracedSeg v)) from rfl]
      rw [replaceAllGo_lit "$CLUSTER_DOMAIN".data (by decide) v
        (renderSegs (rest.map (substBracedSeg v))) v hv, ihr]
      rfl
    | bareVar =>
      rw [show renderSegs ((Seg.bareVar :: rest).map (substBracedSeg v))
            = "$CLUSTER_DOMAIN".data ++ renderSegs (rest.map (substBracedSeg v)) from rfl]
      rw [replaceAllGo_match "$CLUSTER_DOMAIN".data (by decide)
        (renderSegs (rest.map (substBracedSeg v))) v, ihr]
      rfl

/-- Claim C7: cluster-domain resolution is total and never propagates an
error — it returns the environment override when non-empty, otherwise
the Ingress singleton's domain when that lookup succeeds with a
non-empty value, otherwise the fixed default; and the renderer
replaces every braced and bare CLUSTER_DOMAIN token in the template
with the resolved value, leaving every dollar-free literal segment
verbatim (stated over an arbitrary decomposition of the template into
dollar-free literals and tokens, for a dollar-free resolved value). -/
theorem C7_cluster_domain_resolution (envVal : List Char)
    (ingressDomain : Option (Option (List Char))) (segs : List Seg)
    (hsegs : litsNoDollar segs = true)
    (hv : noDollar (resolveClusterDomain envVal ingressDomain) = true) :
    (envVal ≠ [] → resolveClusterDomain envVal ingressDomain = envVal)
  ∧ (∀ d, envVal = [] → ingressDomain = some (some d) → d ≠ [] →
       resolveClusterDomain envVal ingressDomain = d)
  ∧ (envVal = [] →
       (ingressDomain = none ∨ ingressDomain = some none ∨ ingressDomain = some (some [])) →
       resolveClusterDomain envVal ingressDomain = "apps.example.com".data)
  ∧ substituteEnvVars (renderSegs segs) envVal ingressDomain
      = renderWith (resolveClusterDomain envVal ingressDomain) segs := by
  refine ⟨?_, ?_, ?_, ?_⟩
  · intro h
    unfold resolveClusterDomain
    rw [if_neg h]
  · intro d he hi hd
    subst he
    subst hi
    simp [resolveClusterDomain, hd]
  · intro he hcase
    subst he
    rcases hcase with h | h | h <;> (subst h; simp [resolveClusterDomain])
  · have hsub : substituteEnvVars (renderSegs segs) envVal ingressDomain
        = replaceAllGo
            (replaceAllGo (renderSegs segs) 0 "${CLUSTER_DOMAIN}".data
              (resolveClusterDomain envVal ingressDomain))
            0 "$CLUSTER_DOMAIN".data (resolveClusterDomain envVal ingressDomain) := rfl
    rw [hsub,
      replaceAll_pass_braced segs (resolveClusterDomain envVal ingressDomain) hsegs hv,
      replaceAll_pass_bare segs (resolveClusterDomain envVal ingressDomain) hsegs hv]

/-- Claim C7 witness: a template with one braced and one bare token,
rendered with the environment override in effect. -/
theorem C7_cluster_domain_resolution_witness :
    litsNoDollar [Seg.lit "host: ".data, Seg.bracedVar, Seg.lit "\nurl: api.".data,
      Seg.bareVar, Seg.lit "/v1\n".data] = true
  ∧ noDollar (resolveClusterDomain "apps.test.io".data none) = true
  ∧ substituteEnvVars
      (renderSegs [Seg.lit "host: ".data, Seg.bracedVar, Seg.lit "\nurl: api.".data,
        Seg.bareVar, Seg.lit "/v1\n".data])
      "apps.test.io".data none
      = renderWith (resolveClusterDomain "apps.test.io".data none)
          [Seg.lit "host: ".data, Seg.bracedVar, Seg.lit "\nurl: api.".data,
           Seg.bareVar, Seg.lit "/v1\n".data] :=
  ⟨by decide, by decide,
   (C7_cluster_domain_resolution "apps.test.io".data none
      [Seg.lit "host: ".data, Seg.bracedVar, Seg.lit "\nurl: api.".data,
       Seg.bareVar, Seg.lit "/v1\n".data] (by decide) (by decide)).2.2.2⟩
